import Mathlib

/-!
Verification of the ISS tracker's core components against its design
specification: the geospatial projection (`MathUtils.convertLatLonToVector3D`),
the resource load coordinator (`ResourceLoader`), the telemetry service
(`ISSPositionService`), the marker update paths (`ISSMarker`,
`GroundReferenceMarker`), and the camera controller (`SceneManager`).

JavaScript numbers are modelled as real numbers where trigonometry is
involved and as rationals elsewhere.  The single-threaded event loop is
modelled by an explicit arrival order of asynchronous load completions, and
JavaScript object references (for shallow-copy questions) by a small
addressed heap.
-/

/-- A three.js `Vector3` with real-number components. -/
structure Vec3 where
  x : ℝ
  y : ℝ
  z : ℝ

/-- Componentwise addition, as three.js `Vector3.add`. -/
instance : Add Vec3 :=
  ⟨fun a b => ⟨a.x + b.x, a.y + b.y, a.z + b.z⟩⟩

/-- Componentwise subtraction, as three.js `Vector3.sub`. -/
instance : Sub Vec3 :=
  ⟨fun a b => ⟨a.x - b.x, a.y - b.y, a.z - b.z⟩⟩

/-- Scalar multiplication, as three.js `Vector3.multiplyScalar`. -/
instance : SMul ℝ Vec3 :=
  ⟨fun r v => ⟨r * v.x, r * v.y, r * v.z⟩⟩

theorem Vec3.add_def (a b : Vec3) : a + b = ⟨a.x + b.x, a.y + b.y, a.z + b.z⟩ := rfl

theorem Vec3.sub_def (a b : Vec3) : a - b = ⟨a.x - b.x, a.y - b.y, a.z - b.z⟩ := rfl

theorem Vec3.smul_def (r : ℝ) (v : Vec3) : r • v = ⟨r * v.x, r * v.y, r * v.z⟩ := rfl

/-- Euclidean magnitude, as three.js `Vector3.length`. -/
noncomputable def Vec3.length (v : Vec3) : ℝ :=
  Real.sqrt (v.x ^ 2 + v.y ^ 2 + v.z ^ 2)

/-- three.js `Vector3.normalize`: `divideScalar(this.length() || 1)`, so the
zero vector (length `0`) is divided by `1` and returned unchanged. -/
noncomputable def Vec3.normalize (v : Vec3) : Vec3 :=
  if v.length = 0 then v else (1 / v.length) • v

/-- three.js `Vector3.lerp`: each component moves by `alpha` times its
distance to the target component. -/
def Vec3.lerp (v target : Vec3) (alpha : ℝ) : Vec3 :=
  ⟨v.x + (target.x - v.x) * alpha,
   v.y + (target.y - v.y) * alpha,
   v.z + (target.z - v.z) * alpha⟩

namespace MathUtils

/-- `MathUtils.isValidLatitude`: `lat >= -90 && lat <= 90` (the `typeof`
check is vacuous in the embedding, where the input is always a number). -/
def isValidLatitude (lat : ℝ) : Prop :=
  -90 ≤ lat ∧ lat ≤ 90

/-- `MathUtils.isValidLongitude`: `lon >= -180 && lon <= 180`. -/
def isValidLongitude (lon : ℝ) : Prop :=
  -180 ≤ lon ∧ lon ≤ 180

open Classical in
/-- `MathUtils.convertLatLonToVector3D`: invalid coordinates return the
sentinel `Vector3(0, 0, 0)`; otherwise `phi = (90 - lat) * π/180`,
`theta = (lon + 180) * π/180`, and the returned vector is
`(r sin φ cos θ, r cos φ, r sin φ sin θ)`. -/
noncomputable def convertLatLonToVector3D (lat lon radius : ℝ) : Vec3 :=
  if isValidLatitude lat ∧ isValidLongitude lon then
    let phi := (90 - lat) * (Real.pi / 180)
    let theta := (lon + 180) * (Real.pi / 180)
    ⟨radius * Real.sin phi * Real.cos theta,
     radius * Real.cos phi,
     radius * Real.sin phi * Real.sin theta⟩
  else ⟨0, 0, 0⟩

theorem convertLatLonToVector3D_of_valid {lat lon : ℝ} (radius : ℝ)
    (hlat : isValidLatitude lat) (hlon : isValidLongitude lon) :
    convertLatLonToVector3D lat lon radius =
      ⟨radius * Real.sin ((90 - lat) * (Real.pi / 180)) *
         Real.cos ((lon + 180) * (Real.pi / 180)),
       radius * Real.cos ((90 - lat) * (Real.pi / 180)),
       radius * Real.sin ((90 - lat) * (Real.pi / 180)) *
         Real.sin ((lon + 180) * (Real.pi / 180))⟩ := by
  rw [convertLatLonToVector3D, if_pos ⟨hlat, hlon⟩]

theorem convertLatLonToVector3D_of_invalid {lat lon : ℝ} (radius : ℝ)
    (h : ¬(isValidLatitude lat ∧ isValidLongitude lon)) :
    convertLatLonToVector3D lat lon radius = ⟨0, 0, 0⟩ := by
  rw [convertLatLonToVector3D, if_neg h]

/-- Evaluation of the projection at latitude 0, longitude 0, radius 1:
`phi = π/2`, `theta = π`, so the result is `(-1, 0, 0)`. -/
theorem convertLatLonToVector3D_zero_zero_one :
    convertLatLonToVector3D 0 0 1 = ⟨-1, 0, 0⟩ := by
  have hlat : isValidLatitude 0 := by constructor <;> norm_num
  have hlon : isValidLongitude 0 := by constructor <;> norm_num
  rw [convertLatLonToVector3D_of_valid 1 hlat hlon]
  have hphi : (90 - (0 : ℝ)) * (Real.pi / 180) = Real.pi / 2 := by ring
  have htheta : ((0 : ℝ) + 180) * (Real.pi / 180) = Real.pi := by ring
  rw [hphi, htheta]
  simp [Real.sin_pi, Real.cos_pi, Real.sin_pi_div_two, Real.cos_pi_div_two]

end MathUtils

/-- C2: the claim states `convertLatLonToVector3D 0 0` on a unit sphere
yields `(1, 0, 0)`; in fact the code shifts the longitude by `+180°`
(`theta = (lon + 180) * π/180`) instead of negating it, so the result is
`(-1, 0, 0)` — the claim is false at its own reference input. -/
theorem C2_project_origin_counterexample :
    MathUtils.convertLatLonToVector3D 0 0 1 ≠ Vec3.mk 1 0 0 := by
  rw [MathUtils.convertLatLonToVector3D_zero_zero_one]
  intro h
  have hx : (-1 : ℝ) = 1 := congrArg Vec3.x h
  norm_num at hx

/-- C2 (amended): the projection applied to latitude 0, longitude 0,
radius 1 returns the Cartesian point `(-1, 0, 0)`: the code maps longitude
through `theta = (lon + 180) * π/180` (a `180°` shift, not a negation), which
places the equator/reference-meridian surface point on the negative x axis. -/
theorem C2_project_origin_amended :
    MathUtils.convertLatLonToVector3D 0 0 1 = Vec3.mk (-1) 0 0 :=
  MathUtils.convertLatLonToVector3D_zero_zero_one

/-- C7: for every latitude in `[-90, 90]`, longitude in `[-180, 180]` and
radius `r ≥ 0`, the vector returned by `convertLatLonToVector3D` has
magnitude exactly `r`.  (The function is a pure Lean function of its three
arguments, so determinism and absence of input mutation hold by
construction.) -/
theorem C7_projection_magnitude (lat lon r : ℝ)
    (hlat : MathUtils.isValidLatitude lat)
    (hlon : MathUtils.isValidLongitude lon) (hr : 0 ≤ r) :
    (MathUtils.convertLatLonToVector3D lat lon r).length = r := by
  rw [MathUtils.convertLatLonToVector3D_of_valid r hlat hlon]
  set phi := (90 - lat) * (Real.pi / 180) with hphi
  set theta := (lon + 180) * (Real.pi / 180) with htheta
  unfold Vec3.length
  have key :
      (r * Real.sin phi * Real.cos theta) ^ 2 + (r * Real.cos phi) ^ 2 +
        (r * Real.sin phi * Real.sin theta) ^ 2 = r ^ 2 := by
    have h1 : Real.sin phi ^ 2 + Real.cos phi ^ 2 = 1 := Real.sin_sq_add_cos_sq phi
    have h2 : Real.cos theta ^ 2 + Real.sin theta ^ 2 = 1 := Real.cos_sq_add_sin_sq theta
    calc (r * Real.sin phi * Real.cos theta) ^ 2 + (r * Real.cos phi) ^ 2 +
          (r * Real.sin phi * Real.sin theta) ^ 2
        = r ^ 2 * (Real.sin phi ^ 2 * (Real.cos theta ^ 2 + Real.sin theta ^ 2) +
            Real.cos phi ^ 2) := by ring
      _ = r ^ 2 * (Real.sin phi ^ 2 + Real.cos phi ^ 2) := by rw [h2, mul_one]
      _ = r ^ 2 := by rw [h1, mul_one]
  rw [key]
  exact Real.sqrt_sq hr

/-- C7 witness: at latitude 0, longitude 0, radius 2 the hypotheses hold and
the projected vector has magnitude 2. -/
theorem C7_projection_magnitude_witness :
    MathUtils.isValidLatitude 0 ∧ MathUtils.isValidLongitude 0 ∧ (0 : ℝ) ≤ 2 ∧
      (MathUtils.convertLatLonToVector3D 0 0 2).length = 2 := by
  have hlat : MathUtils.isValidLatitude 0 := by constructor <;> norm_num
  have hlon : MathUtils.isValidLongitude 0 := by constructor <;> norm_num
  exact ⟨hlat, hlon, by norm_num, C7_projection_magnitude 0 0 2 hlat hlon (by norm_num)⟩

/-- A geographic position `{lat, lon}` with real-number fields, as consumed
by the marker update paths. -/
structure GeoPosR where
  lat : ℝ
  lon : ℝ

/-- `CONFIG.SCENE.EARTH_RADIUS` (config.js). -/
def EARTH_RADIUS : ℝ := 1

/-- `CONFIG.SCENE.ISS_ORBIT_HEIGHT` (config.js). -/
def ISS_ORBIT_HEIGHT : ℝ := 1.1

/-- `CONFIG.SCENE.ISS_GROUND_REFERENCE.HEIGHT_OFFSET` (config.js). -/
def GROUND_HEIGHT_OFFSET : ℝ := 0.0005

/-- Observable state of an `ISSMarker`: the stored `{lat, lon}` and the
mesh's world position.  The model collapses the deferred positioning done
through `loadingPromise` (the same vector is applied once the mesh exists). -/
structure ISSMarkerState where
  currentPosition : GeoPosR
  meshPosition : Vec3

open Classical in
/-- `ISSMarker.updatePosition`: a missing position or an out-of-range
latitude/longitude logs a warning and returns without touching any state;
otherwise the position is stored (as a copy) and the mesh is moved to
`convertLatLonToVector3D(lat, lon, ISS_ORBIT_HEIGHT)`. -/
noncomputable def ISSMarker.updatePosition (s : ISSMarkerState) (position : Option GeoPosR) :
    ISSMarkerState :=
  match position with
  | none => s
  | some p =>
    if MathUtils.isValidLatitude p.lat ∧ MathUtils.isValidLongitude p.lon then
      { currentPosition := p,
        meshPosition := MathUtils.convertLatLonToVector3D p.lat p.lon ISS_ORBIT_HEIGHT }
    else s

/-- Observable state of a `GroundReferenceMarker`: the marker mesh position,
`none` when the marker has been disposed (`this.marker = null`). -/
structure GroundMarkerState where
  markerPosition : Option Vec3

/-- `GroundReferenceMarker.updatePosition`: only `!position || !this.marker`
is checked — there is no latitude/longitude validation; the marker is moved
to `convertLatLonToVector3D(lat, lon, EARTH_RADIUS + HEIGHT_OFFSET)`. -/
noncomputable def GroundReferenceMarker.updatePosition (s : GroundMarkerState)
    (position : Option GeoPosR) : GroundMarkerState :=
  match position, s.markerPosition with
  | some p, some _ =>
    { markerPosition :=
        some (MathUtils.convertLatLonToVector3D p.lat p.lon
          (EARTH_RADIUS + GROUND_HEIGHT_OFFSET)) }
  | _, _ => s

/-- C5: the claim says that for out-of-range coordinates no consumer
receives a Cartesian position; but `GroundReferenceMarker.updatePosition`
never validates, so at latitude 100 a ground marker standing at `(1, 2, 3)`
is moved to the sentinel `(0, 0, 0)` — its update is not skipped. -/
theorem C5_invalid_coordinates_counterexample :
    GroundReferenceMarker.updatePosition ⟨some ⟨1, 2, 3⟩⟩ (some ⟨100, 0⟩) =
        ⟨some ⟨0, 0, 0⟩⟩ ∧
      Vec3.mk 0 0 0 ≠ Vec3.mk 1 2 3 := by
  constructor
  · show GroundMarkerState.mk
        (some (MathUtils.convertLatLonToVector3D 100 0 (EARTH_RADIUS + GROUND_HEIGHT_OFFSET))) =
      GroundMarkerState.mk (some ⟨0, 0, 0⟩)
    rw [MathUtils.convertLatLonToVector3D_of_invalid]
    rintro ⟨⟨-, h90⟩, -⟩
    norm_num [MathUtils.isValidLatitude] at h90
  · intro h
    have hx : (0 : ℝ) = 1 := congrArg Vec3.x h
    norm_num at hx

/-- C5 (amended): for a position with out-of-range latitude or longitude,
`ISSMarker.updatePosition` validates and skips (its state is unchanged and no
projected point is produced for it), while `GroundReferenceMarker.updatePosition`
does not validate: `convertLatLonToVector3D` returns the constant sentinel
`(0, 0, 0)` — independent of the coordinates — and the ground marker is moved
to the sphere center rather than receiving a point projected from the
coordinates. -/
theorem C5_invalid_coordinates_amended (s : ISSMarkerState) (g : GroundMarkerState)
    (m : Vec3) (p : GeoPosR) (r : ℝ)
    (hinv : ¬(MathUtils.isValidLatitude p.lat ∧ MathUtils.isValidLongitude p.lon))
    (hm : g.markerPosition = some m) :
    ISSMarker.updatePosition s (some p) = s ∧
      GroundReferenceMarker.updatePosition g (some p) = ⟨some ⟨0, 0, 0⟩⟩ ∧
      MathUtils.convertLatLonToVector3D p.lat p.lon r = ⟨0, 0, 0⟩ := by
  refine ⟨?_, ?_, MathUtils.convertLatLonToVector3D_of_invalid r hinv⟩
  · simp only [ISSMarker.updatePosition]
    rw [if_neg hinv]
  · obtain ⟨pos⟩ := g
    cases pos with
    | none => cases hm
    | some v =>
      simp only [GroundReferenceMarker.updatePosition]
      rw [MathUtils.convertLatLonToVector3D_of_invalid _ hinv]

/-- C5 (amended) witness: at latitude 100, longitude 0 the hypotheses hold
for a concrete marker pair, the ISS marker is untouched and the ground
marker is moved to the origin. -/
theorem C5_invalid_coordinates_amended_witness :
    ISSMarker.updatePosition ⟨⟨0, 0⟩, ⟨9, 9, 9⟩⟩ (some ⟨100, 0⟩) = ⟨⟨0, 0⟩, ⟨9, 9, 9⟩⟩ ∧
      GroundReferenceMarker.updatePosition ⟨some ⟨1, 2, 3⟩⟩ (some ⟨100, 0⟩) =
        ⟨some ⟨0, 0, 0⟩⟩ ∧
      MathUtils.convertLatLonToVector3D 100 0 ISS_ORBIT_HEIGHT = ⟨0, 0, 0⟩ :=
  C5_invalid_coordinates_amended ⟨⟨0, 0⟩, ⟨9, 9, 9⟩⟩ ⟨some ⟨1, 2, 3⟩⟩ ⟨1, 2, 3⟩ ⟨100, 0⟩
    ISS_ORBIT_HEIGHT
    (by rintro ⟨⟨-, h90⟩, -⟩; norm_num [MathUtils.isValidLatitude] at h90)
    rfl

theorem Vec3.add_neg_smul_eq_sub_smul (a t : Vec3) (r : ℝ) : a + (-r) • t = a - r • t := by
  simp only [Vec3.add_def, Vec3.sub_def, Vec3.smul_def, Vec3.mk.injEq]
  refine ⟨by ring, by ring, by ring⟩

/-- Camera-relevant state of the `SceneManager` in follow mode: the live
camera position, the argument last passed to `camera.lookAt`, the tracked
ISS marker's mesh position (`none` when no marker or mesh is set), and the
earth group's position (the sphere center). -/
structure FollowCameraState where
  cameraPosition : Vec3
  lookAtTarget : Vec3
  issMarkerMeshPosition : Option Vec3
  earthCenter : Vec3

/-- The fixed per-frame interpolation factor `0.5` passed to
`camera.position.lerp` in `SceneManager.updateFollowISSCamera`. -/
def followLerpAlpha : ℝ := 0.5

/-- `SceneManager.updateFollowISSCamera`: when a marker mesh exists, compute
`issDirection = normalize(issPosition - earthCenter)`, the cross-axis-swap
tangent `normalize((-dir.z, 0, dir.x))`, the target
`issPosition + 1 * up + (-0.3) * tangent`, blend the camera position toward
it with `lerp(·, 0.5)` and look at the earth center. -/
noncomputable def SceneManager.updateFollowISSCamera (s : FollowCameraState) :
    FollowCameraState :=
  match s.issMarkerMeshPosition with
  | none => s
  | some issPosition =>
    let issDirection := (issPosition - s.earthCenter).normalize
    let heightOffset : ℝ := 1
    let backwardOffset : ℝ := 0.3
    let upVector := issDirection
    let tangent := (Vec3.mk (-issDirection.z) 0 issDirection.x).normalize
    let cameraPosition :=
      issPosition + heightOffset • upVector + (-backwardOffset) • tangent
    { s with
        cameraPosition := s.cameraPosition.lerp cameraPosition followLerpAlpha,
        lookAtTarget := s.earthCenter }

/-- Modelled from the spec's Camera Follow Strategy wording: target camera
position `trackedPosition + dir * heightOffset - tangent * backwardOffset`,
with `dir` the normalized vector from sphere center to tracked position and
`tangent` the normalized `(-dir.z, 0, dir.x)`. -/
noncomputable def specFollowTargetPosition (trackedPosition sphereCenter : Vec3) : Vec3 :=
  let dir := (trackedPosition - sphereCenter).normalize
  let tangent := (Vec3.mk (-dir.z) 0 dir.x).normalize
  trackedPosition + (1 : ℝ) • dir - (0.3 : ℝ) • tangent

/-- C6: in follow mode, with a tracked object at `p` and sphere center `c`,
the computed camera target equals the spec formula
`p + dir * heightOffset - tangent * backwardOffset`; the live camera position
is blended toward it by the fixed constant factor `0.5` (strictly between 0
and 1, so never snapped), and the look-at target is the sphere center `c`,
not the tracked object. -/
theorem C6_follow_camera (s : FollowCameraState) (p : Vec3)
    (hp : s.issMarkerMeshPosition = some p) :
    (SceneManager.updateFollowISSCamera s).cameraPosition =
        s.cameraPosition.lerp (specFollowTargetPosition p s.earthCenter) followLerpAlpha ∧
      (SceneManager.updateFollowISSCamera s).lookAtTarget = s.earthCenter ∧
      0 < followLerpAlpha ∧ followLerpAlpha < 1 := by
  obtain ⟨cam, look, mpos, c⟩ := s
  simp only at hp
  subst hp
  refine ⟨?_, ?_, by norm_num [followLerpAlpha], by norm_num [followLerpAlpha]⟩
  · simp only [SceneManager.updateFollowISSCamera, specFollowTargetPosition]
    rw [Vec3.add_neg_smul_eq_sub_smul]
  · simp only [SceneManager.updateFollowISSCamera]

/-- C6 witness: with the marker at `(2, 0, 0)`, the earth at the origin and
the camera at `(0, 0, 5)`, the hypothesis holds and the follow update obeys
the formula. -/
theorem C6_follow_camera_witness :
    (SceneManager.updateFollowISSCamera ⟨⟨0, 0, 5⟩, ⟨0, 0, 0⟩, some ⟨2, 0, 0⟩, ⟨0, 0, 0⟩⟩).cameraPosition =
        Vec3.lerp ⟨0, 0, 5⟩ (specFollowTargetPosition ⟨2, 0, 0⟩ ⟨0, 0, 0⟩) followLerpAlpha ∧
      (SceneManager.updateFollowISSCamera ⟨⟨0, 0, 5⟩, ⟨0, 0, 0⟩, some ⟨2, 0, 0⟩, ⟨0, 0, 0⟩⟩).lookAtTarget =
        Vec3.mk 0 0 0 ∧
      0 < followLerpAlpha ∧ followLerpAlpha < 1 :=
  C6_follow_camera ⟨⟨0, 0, 5⟩, ⟨0, 0, 0⟩, some ⟨2, 0, 0⟩, ⟨0, 0, 0⟩⟩ ⟨2, 0, 0⟩ rfl

/-- Camera-mode-relevant state of the `SceneManager`: the `cameraMode`
string and the `OrbitControls.enabled` flag for user-drag control. -/
structure CameraModeState where
  cameraMode : String
  controlsEnabled : Bool
deriving DecidableEq

/-- The `validModes` array in `SceneManager.setCameraMode`. -/
def validCameraModes : List String := ["orbit", "follow-iss", "static"]

/-- `SceneManager.setCameraMode`: an argument outside `validModes` logs a
warning and returns with no state change; otherwise the mode is stored and
the controls are disabled for `follow-iss` and re-enabled for any other
valid mode. -/
def SceneManager.setCameraMode (s : CameraModeState) (mode : String) : CameraModeState :=
  if mode ∈ validCameraModes then
    { cameraMode := mode, controlsEnabled := mode != "follow-iss" }
  else s

/-- C9: `setCameraMode` with a string other than the three valid modes
leaves both the camera mode and the controls-enabled flag unchanged; with a
valid argument, the user-drag controls end up disabled exactly when the new
mode is `follow-iss`. -/
theorem C9_set_camera_mode (s : CameraModeState) (mode : String) :
    (mode ∉ validCameraModes → SceneManager.setCameraMode s mode = s) ∧
      (mode ∈ validCameraModes →
        (SceneManager.setCameraMode s mode).cameraMode = mode ∧
          ((SceneManager.setCameraMode s mode).controlsEnabled = false ↔
            mode = "follow-iss")) := by
  constructor
  · intro h
    simp [SceneManager.setCameraMode, h]
  · intro h
    simp [SceneManager.setCameraMode, h]

/-- C9 witness: the invalid mode `"planet"` changes nothing, and switching
to `"follow-iss"` stores the mode and disables the controls. -/
theorem C9_set_camera_mode_witness :
    ("planet" ∉ validCameraModes ∧
        SceneManager.setCameraMode ⟨"orbit", true⟩ "planet" = ⟨"orbit", true⟩) ∧
      ("follow-iss" ∈ validCameraModes ∧
        (SceneManager.setCameraMode ⟨"orbit", true⟩ "follow-iss").cameraMode = "follow-iss" ∧
          ((SceneManager.setCameraMode ⟨"orbit", true⟩ "follow-iss").controlsEnabled = false ↔
            "follow-iss" = "follow-iss")) :=
  ⟨⟨by decide, (C9_set_camera_mode ⟨"orbit", true⟩ "planet").1 (by decide)⟩,
   ⟨by decide, (C9_set_camera_mode ⟨"orbit", true⟩ "follow-iss").2 (by decide)⟩⟩

/-- A geographic position `{lat, lon}` with rational fields, as produced by
`parseFloat` on the telemetry payload. -/
structure GeoPos where
  lat : ℚ
  lon : ℚ
deriving DecidableEq

/-- State of an `ISSPositionService`: the stored current position, the
registered listener callbacks (by identifier), the `isPolling` flag and
whether the recurring `setInterval` timer is installed. -/
structure ServiceState where
  currentPosition : GeoPos
  listeners : List ℕ
  isPolling : Bool
  pollingTimerSet : Bool
deriving DecidableEq

/-- The outcome of the `fetch` awaited by `fetchCurrentPosition`: a network
error (rejected promise), or an HTTP response with its `ok` flag and the
parsed `latitude`/`longitude` fields. -/
inductive FetchOutcome where
  | networkError : FetchOutcome
  | httpResponse (ok : Bool) (latitude longitude : ℚ) : FetchOutcome
deriving DecidableEq

/-- `ISSPositionService.notifyListeners`: every registered listener is
called with the position (exceptions in a listener are caught and logged). -/
def ISSPositionService.notifyListeners (s : ServiceState) (p : GeoPos) :
    List (ℕ × GeoPos) :=
  s.listeners.map fun l => (l, p)

/-- `ISSPositionService.updatePosition`: store the new position, then notify
all listeners. -/
def ISSPositionService.updatePosition (s : ServiceState) (p : GeoPos) :
    ServiceState × List (ℕ × GeoPos) :=
  ({ s with currentPosition := p }, ISSPositionService.notifyListeners s p)

/-- `ISSPositionService.fetchCurrentPosition`: a rejected fetch or a
non-OK response throws, is caught, logged, and `null` is returned with no
state change; an OK response parses `{latitude, longitude}`, stores the
position, notifies the listeners and returns the position.  The result is
`(new state, returned value, listener notifications)`. -/
def ISSPositionService.fetchCurrentPosition (s : ServiceState) (o : FetchOutcome) :
    ServiceState × Option GeoPos × List (ℕ × GeoPos) :=
  match o with
  | .networkError => (s, none, [])
  | .httpResponse ok la lo =>
    if ok then
      let position : GeoPos := ⟨la, lo⟩
      let (s1, notified) := ISSPositionService.updatePosition s position
      (s1, some position, notified)
    else (s, none, [])

/-- C8: on a failed telemetry fetch (network error or non-OK HTTP status),
`fetchCurrentPosition` returns `null`, notifies no listener and leaves the
whole service state — in particular the stored current position, the
`isPolling` flag and the recurring timer — unchanged, so the next scheduled
poll proceeds unaffected. -/
theorem C8_fetch_failure (s : ServiceState) (o : FetchOutcome)
    (hfail : o = .networkError ∨ ∃ la lo, o = .httpResponse false la lo) :
    ISSPositionService.fetchCurrentPosition s o = (s, none, []) ∧
      (ISSPositionService.fetchCurrentPosition s o).1.currentPosition =
        s.currentPosition ∧
      (ISSPositionService.fetchCurrentPosition s o).1.isPolling = s.isPolling ∧
      (ISSPositionService.fetchCurrentPosition s o).1.pollingTimerSet =
        s.pollingTimerSet := by
  have h : ISSPositionService.fetchCurrentPosition s o = (s, none, []) := by
    rcases hfail with h | ⟨la, lo, h⟩ <;> subst h <;>
      simp [ISSPositionService.fetchCurrentPosition]
  rw [h]
  exact ⟨rfl, rfl, rfl, rfl⟩

/-- C8 witness: a network error on a concrete service state changes
nothing. -/
theorem C8_fetch_failure_witness :
    ISSPositionService.fetchCurrentPosition ⟨⟨398027/10000, 1628492/10000⟩, [0, 1], true, true⟩
        .networkError =
        (⟨⟨398027/10000, 1628492/10000⟩, [0, 1], true, true⟩, none, []) ∧
      (ISSPositionService.fetchCurrentPosition ⟨⟨398027/10000, 1628492/10000⟩, [0, 1], true, true⟩
          .networkError).1.currentPosition = ⟨398027/10000, 1628492/10000⟩ ∧
      (ISSPositionService.fetchCurrentPosition ⟨⟨398027/10000, 1628492/10000⟩, [0, 1], true, true⟩
          .networkError).1.isPolling = true ∧
      (ISSPositionService.fetchCurrentPosition ⟨⟨398027/10000, 1628492/10000⟩, [0, 1], true, true⟩
          .networkError).1.pollingTimerSet = true :=
  C8_fetch_failure ⟨⟨398027/10000, 1628492/10000⟩, [0, 1], true, true⟩ .networkError
    (Or.inl rfl)

/-- A stored `{lat, lon}` object on the JavaScript heap. -/
structure PosObj where
  lat : ℚ
  lon : ℚ
deriving DecidableEq

/-- A small JavaScript heap: objects addressed by allocation index. -/
structure Heap where
  cells : List PosObj
deriving DecidableEq

/-- Read the object at an address (arbitrary default off the end). -/
def Heap.read (h : Heap) (a : ℕ) : PosObj :=
  h.cells.getD a ⟨0, 0⟩

/-- Allocate a fresh object, returning the new heap and its address. -/
def Heap.alloc (h : Heap) (o : PosObj) : Heap × ℕ :=
  (⟨h.cells ++ [o]⟩, h.cells.length)

/-- Overwrite the fields of the object at an address (a mutation such as
`obj.lat = …` on the object returned to the caller). -/
def Heap.write (h : Heap) (a : ℕ) (o : PosObj) : Heap :=
  ⟨h.cells.set a o⟩

/-- `getCurrentPosition` in both `ISSPositionService` and `ISSMarker`:
`return {...this.currentPosition}` — allocate a fresh object whose fields
are copied from the stored one, and return its reference. -/
def getCurrentPositionCopy (h : Heap) (stored : ℕ) : Heap × ℕ :=
  h.alloc (h.read stored)

theorem Heap.read_alloc_write_other (h : Heap) (a : ℕ) (o co : PosObj)
    (ha : a < h.cells.length) :
    Heap.read (Heap.write ⟨h.cells ++ [co]⟩ h.cells.length o) a = Heap.read h a := by
  unfold Heap.read Heap.write
  simp only
  rw [List.getD_eq_getElem?_getD, List.getD_eq_getElem?_getD]
  rw [List.getElem?_set_ne (by omega)]
  rw [List.getElem?_append_left ha]

theorem Heap.read_alloc_fresh (h : Heap) (o : PosObj) :
    Heap.read ⟨h.cells ++ [o]⟩ h.cells.length = o := by
  unfold Heap.read
  rw [List.getD_eq_getElem?_getD, List.getElem?_concat_length, Option.getD_some]

/-- C10: `getCurrentPosition` returns a fresh shallow copy — the returned
reference differs from the stored one; after any mutation of the returned
object, the stored position reads back unchanged, and a subsequent
`getCurrentPosition` call still returns the original field values. -/
theorem C10_get_current_position_copy (h : Heap) (stored : ℕ)
    (hs : stored < h.cells.length) :
    (getCurrentPositionCopy h stored).2 ≠ stored ∧
      ∀ o : PosObj,
        Heap.read (Heap.write (getCurrentPositionCopy h stored).1
            (getCurrentPositionCopy h stored).2 o) stored = Heap.read h stored ∧
        Heap.read
            (getCurrentPositionCopy
              (Heap.write (getCurrentPositionCopy h stored).1
                (getCurrentPositionCopy h stored).2 o) stored).1
            (getCurrentPositionCopy
              (Heap.write (getCurrentPositionCopy h stored).1
                (getCurrentPositionCopy h stored).2 o) stored).2 =
          Heap.read h stored := by
  constructor
  · intro hcontra
    have : stored < h.cells.length := hs
    simp only [getCurrentPositionCopy, Heap.alloc] at hcontra
    omega
  · intro o
    have h1 : Heap.read (Heap.write (getCurrentPositionCopy h stored).1
        (getCurrentPositionCopy h stored).2 o) stored = Heap.read h stored :=
      Heap.read_alloc_write_other h stored o (h.read stored) hs
    refine ⟨h1, ?_⟩
    set h2 := Heap.write (getCurrentPositionCopy h stored).1
      (getCurrentPositionCopy h stored).2 o with hh2
    have h3 : Heap.read (getCurrentPositionCopy h2 stored).1
        (getCurrentPositionCopy h2 stored).2 = h2.read stored := by
      unfold getCurrentPositionCopy Heap.alloc
      exact Heap.read_alloc_fresh h2 (h2.read stored)
    rw [h3, h1]

/-- C10 witness: on a one-cell heap the returned reference is fresh and a
mutation of it leaves the stored position readable unchanged. -/
theorem C10_get_current_position_copy_witness :
    (0 : ℕ) < (Heap.mk [⟨1, 2⟩]).cells.length ∧
      (getCurrentPositionCopy ⟨[⟨1, 2⟩]⟩ 0).2 ≠ 0 ∧
      Heap.read (Heap.write (getCurrentPositionCopy ⟨[⟨1, 2⟩]⟩ 0).1
          (getCurrentPositionCopy ⟨[⟨1, 2⟩]⟩ 0).2 ⟨5, 6⟩) 0 = Heap.read ⟨[⟨1, 2⟩]⟩ 0 :=
  ⟨by decide,
   (C10_get_current_position_copy ⟨[⟨1, 2⟩]⟩ 0 (by decide)).1,
   ((C10_get_current_position_copy ⟨[⟨1, 2⟩]⟩ 0 (by decide)).2 ⟨5, 6⟩).1⟩

/-- An event observable through the `ResourceLoader`'s callback lists, in
the order the coordinator dispatches callbacks.  Callbacks are identified by
the number under which they were registered. -/
inductive LoadEvent where
  | progress (cb : ℕ) (prog : ℚ) (loaded total : ℕ) : LoadEvent
  | complete (cb : ℕ) (resources : List (String × ℕ)) : LoadEvent
  | error (cb : ℕ) (resourceName : String) : LoadEvent
deriving DecidableEq

/-- The settlement of one in-flight `loadResource` call, in event-loop
arrival order: the resource's name, and `some handle` if its load resolved
or `none` if it rejected (including the unsupported-type throw). -/
structure Settle where
  name : String
  result : Option ℕ
deriving DecidableEq

/-- Mutable state of a `ResourceLoader` (the `Map` of resolved handles is a
name-to-handle association list in insertion order). -/
structure LoaderState where
  loadingProgress : ℚ
  totalResources : ℕ
  loadedResources : ℕ
  resources : List (String × ℕ)
  loadingCallbacks : List ℕ
  completeCallbacks : List ℕ
  errorCallbacks : List ℕ
  isLoading : Bool
  isComplete : Bool
  resourceList : Option (List String)
deriving DecidableEq

namespace ResourceLoader

/-- The `ResourceLoader` constructor state. -/
def new : LoaderState :=
  { loadingProgress := 0, totalResources := 0, loadedResources := 0, resources := [],
    loadingCallbacks := [], completeCallbacks := [], errorCallbacks := [],
    isLoading := false, isComplete := false, resourceList := none }

/-- `onProgress`: push a progress callback. -/
def onProgress (s : LoaderState) (cb : ℕ) : LoaderState :=
  { s with loadingCallbacks := s.loadingCallbacks ++ [cb] }

/-- `onComplete`: push a completion callback. -/
def onComplete (s : LoaderState) (cb : ℕ) : LoaderState :=
  { s with completeCallbacks := s.completeCallbacks ++ [cb] }

/-- `onError`: push an error callback. -/
def onError (s : LoaderState) (cb : ℕ) : LoaderState :=
  { s with errorCallbacks := s.errorCallbacks ++ [cb] }

/-- `defineResources`: declare the resource list (by resource name) and
reset the session counters, the handle map and the completion flag. -/
def defineResources (s : LoaderState) (resourceNames : List String) : LoaderState :=
  { s with totalResources := resourceNames.length, resourceList := some resourceNames,
           loadedResources := 0, loadingProgress := 0, resources := [],
           isComplete := false }

/-- JavaScript `Map.prototype.set`: replace the value under an existing key,
otherwise append the new entry. -/
def mapSet (m : List (String × ℕ)) (k : String) (v : ℕ) : List (String × ℕ) :=
  if m.any (fun p => p.1 == k) then
    m.map fun p => if p.1 == k then (k, v) else p
  else m ++ [(k, v)]

/-- The progress value recomputed by `updateProgress`:
`loaded / total * 100`, and `100` when no resources are declared. -/
def computeProgress (loaded total : ℕ) : ℚ :=
  if 0 < total then (loaded : ℚ) / (total : ℚ) * 100 else 100

/-- `updateProgress`: store the recomputed progress and synchronously call
every progress callback with `(progress, loadedCount, totalCount)`; a
throwing callback is caught and logged, so dispatch always continues. -/
def updateProgress (s : LoaderState) : LoaderState × List LoadEvent :=
  let p := computeProgress s.loadedResources s.totalResources
  ({ s with loadingProgress := p },
   s.loadingCallbacks.map fun cb => .progress cb p s.loadedResources s.totalResources)

/-- `resourceLoaded`: increment the completed counter (called on success and
on failure alike) and update progress. -/
def resourceLoaded (s : LoaderState) : LoaderState × List LoadEvent :=
  updateProgress { s with loadedResources := s.loadedResources + 1 }

/-- `triggerError`: call every error callback with `(error, resourceName)`. -/
def triggerError (s : LoaderState) (resourceName : String) : List LoadEvent :=
  s.errorCallbacks.map fun cb => .error cb resourceName

/-- The continuation of `loadResource` once its awaited load settles: a
resolved load stores its handle and counts itself; a rejected load reports
the error and still counts itself ("Still increment counter to avoid
hanging"). -/
def processSettle (s : LoaderState) (t : Settle) : LoaderState × List LoadEvent :=
  match t.result with
  | some handle => resourceLoaded { s with resources := mapSet s.resources t.name handle }
  | none =>
    let errs := triggerError s t.name
    let (s1, evs) := resourceLoaded s
    (s1, errs ++ evs)

/-- Run the per-load continuations in event-loop arrival order. -/
def processSettles : LoaderState → List Settle → LoaderState × List LoadEvent
  | s, [] => (s, [])
  | s, t :: ts =>
    let (s1, e1) := processSettle s t
    let (s2, e2) := processSettles s1 ts
    (s2, e1 ++ e2)

/-- `completeLoading`: clear `isLoading`, set the completion flag, force
progress to 100 and call every completion callback with the handle map. -/
def completeLoading (s : LoaderState) : LoaderState × List LoadEvent :=
  ({ s with isLoading := false, isComplete := true, loadingProgress := 100 },
   s.completeCallbacks.map fun cb => .complete cb s.resources)

/-- The main branch of `startLoading`: set `isLoading`, emit the initial
progress update, let every load settle (in `settles` order), then the
`Promise.all` join resolves — `loadResource` never rethrows, so the `catch`
branch of `startLoading` is unreachable — and `completeLoading` runs. -/
def runLoading (s : LoaderState) (settles : List Settle) : LoaderState × List LoadEvent :=
  let s1 := { s with isLoading := true }
  let (s2, e0) := updateProgress s1
  let (s3, e1) := processSettles s2 settles
  let (s4, e2) := completeLoading s3
  (s4, e0 ++ e1 ++ e2)

/-- `startLoading`: a warning no-op while a load is in progress; with no
declared resource list (or an empty one) it completes immediately;
otherwise it runs the load session. -/
def startLoading (s : LoaderState) (settles : List Settle) : LoaderState × List LoadEvent :=
  if s.isLoading then (s, [])
  else
    match s.resourceList with
    | none => completeLoading s
    | some [] => completeLoading s
    | some (_ :: _) => runLoading s settles

end ResourceLoader

/-- Whether an event is a progress-callback invocation. -/
def LoadEvent.isProgressEvt : LoadEvent → Bool
  | .progress .. => true
  | _ => false

/-- Whether an event is a completion-callback invocation. -/
def LoadEvent.isCompleteEvt : LoadEvent → Bool
  | .complete .. => true
  | _ => false

/-- The progress-callback invocations of a trace, in dispatch order. -/
def progressEvents (evs : List LoadEvent) : List LoadEvent :=
  evs.filter LoadEvent.isProgressEvt

/-- The completion-callback invocations of a trace, in dispatch order. -/
def completeEvents (evs : List LoadEvent) : List LoadEvent :=
  evs.filter LoadEvent.isCompleteEvt

/-- The `loadedCount` values delivered to progress callbacks, in dispatch
order. -/
def progressLoadedCounts (evs : List LoadEvent) : List ℕ :=
  evs.filterMap fun e =>
    match e with
    | .progress _ _ loaded _ => some loaded
    | _ => none

namespace ResourceLoader

theorem processSettles_nil (s : LoaderState) : processSettles s [] = (s, []) := rfl

theorem processSettles_cons_fst (s : LoaderState) (t : Settle) (ts : List Settle) :
    (processSettles s (t :: ts)).1 = (processSettles (processSettle s t).1 ts).1 := rfl

theorem processSettles_cons_snd (s : LoaderState) (t : Settle) (ts : List Settle) :
    (processSettles s (t :: ts)).2 =
      (processSettle s t).2 ++ (processSettles (processSettle s t).1 ts).2 := rfl

theorem processSettle_fields (s : LoaderState) (t : Settle) :
    (processSettle s t).1.loadedResources = s.loadedResources + 1 ∧
    (processSettle s t).1.totalResources = s.totalResources ∧
    (processSettle s t).1.loadingCallbacks = s.loadingCallbacks ∧
    (processSettle s t).1.completeCallbacks = s.completeCallbacks ∧
    (processSettle s t).1.errorCallbacks = s.errorCallbacks ∧
    (processSettle s t).1.isLoading = s.isLoading ∧
    (processSettle s t).1.isComplete = s.isComplete ∧
    (processSettle s t).1.resourceList = s.resourceList := by
  obtain ⟨n, r⟩ := t
  cases r <;> exact ⟨rfl, rfl, rfl, rfl, rfl, rfl, rfl, rfl⟩

theorem processSettles_fields (ts : List Settle) (s : LoaderState) :
    (processSettles s ts).1.loadedResources = s.loadedResources + ts.length ∧
    (processSettles s ts).1.totalResources = s.totalResources ∧
    (processSettles s ts).1.loadingCallbacks = s.loadingCallbacks ∧
    (processSettles s ts).1.completeCallbacks = s.completeCallbacks ∧
    (processSettles s ts).1.errorCallbacks = s.errorCallbacks ∧
    (processSettles s ts).1.isLoading = s.isLoading ∧
    (processSettles s ts).1.isComplete = s.isComplete ∧
    (processSettles s ts).1.resourceList = s.resourceList := by
  induction ts generalizing s with
  | nil => exact ⟨rfl, rfl, rfl, rfl, rfl, rfl, rfl, rfl⟩
  | cons t ts ih =>
    obtain ⟨g1, g2, g3, g4, g5, g6, g7, g8⟩ := processSettle_fields s t
    obtain ⟨h1, h2, h3, h4, h5, h6, h7, h8⟩ := ih (processSettle s t).1
    rw [g1] at h1
    rw [g2] at h2
    rw [g3] at h3
    rw [g4] at h4
    rw [g5] at h5
    rw [g6] at h6
    rw [g7] at h7
    rw [g8] at h8
    refine ⟨?_, h2, h3, h4, h5, h6, h7, h8⟩
    rw [processSettles_cons_fst, h1, List.length_cons]
    omega

theorem progressEvents_append (a b : List LoadEvent) :
    progressEvents (a ++ b) = progressEvents a ++ progressEvents b :=
  List.filter_append a b

theorem completeEvents_append (a b : List LoadEvent) :
    completeEvents (a ++ b) = completeEvents a ++ completeEvents b :=
  List.filter_append a b

theorem progressEvents_progress_map (cbs : List ℕ) (p : ℚ) (l T : ℕ) :
    progressEvents (cbs.map fun cb => LoadEvent.progress cb p l T) =
      cbs.map fun cb => LoadEvent.progress cb p l T := by
  induction cbs with
  | nil => rfl
  | cons c cs _ =>
    simp [progressEvents, List.filter_cons, LoadEvent.isProgressEvt]

theorem progressEvents_error_map (cbs : List ℕ) (nm : String) :
    progressEvents (cbs.map fun cb => LoadEvent.error cb nm) = [] := by
  induction cbs with
  | nil => rfl
  | cons c cs _ =>
    simp [progressEvents, List.filter_cons, LoadEvent.isProgressEvt]

theorem completeEvents_progress_map (cbs : List ℕ) (p : ℚ) (l T : ℕ) :
    completeEvents (cbs.map fun cb => LoadEvent.progress cb p l T) = [] := by
  induction cbs with
  | nil => rfl
  | cons c cs _ =>
    simp [completeEvents, List.filter_cons, LoadEvent.isCompleteEvt]

theorem completeEvents_error_map (cbs : List ℕ) (nm : String) :
    completeEvents (cbs.map fun cb => LoadEvent.error cb nm) = [] := by
  induction cbs with
  | nil => rfl
  | cons c cs _ =>
    simp [completeEvents, List.filter_cons, LoadEvent.isCompleteEvt]

theorem completeEvents_complete_map (cbs : List ℕ) (rs : List (String × ℕ)) :
    completeEvents (cbs.map fun cb => LoadEvent.complete cb rs) =
      cbs.map fun cb => LoadEvent.complete cb rs := by
  induction cbs with
  | nil => rfl
  | cons c cs _ =>
    simp [completeEvents, List.filter_cons, LoadEvent.isCompleteEvt]

theorem progressEvents_complete_map (cbs : List ℕ) (rs : List (String × ℕ)) :
    progressEvents (cbs.map fun cb => LoadEvent.complete cb rs) = [] := by
  induction cbs with
  | nil => rfl
  | cons c cs _ =>
    simp [progressEvents, List.filter_cons, LoadEvent.isProgressEvt]

theorem progressEvents_processSettle (s : LoaderState) (t : Settle) :
    progressEvents (processSettle s t).2 =
      s.loadingCallbacks.map fun cb =>
        LoadEvent.progress cb (computeProgress (s.loadedResources + 1) s.totalResources)
          (s.loadedResources + 1) s.totalResources := by
  obtain ⟨n, r⟩ := t
  cases r with
  | none =>
    show progressEvents (triggerError s n ++
      s.loadingCallbacks.map fun cb =>
        LoadEvent.progress cb (computeProgress (s.loadedResources + 1) s.totalResources)
          (s.loadedResources + 1) s.totalResources) = _
    rw [progressEvents_append]
    show progressEvents (s.errorCallbacks.map fun cb => LoadEvent.error cb n) ++ _ = _
    rw [progressEvents_error_map, progressEvents_progress_map, List.nil_append]
  | some h =>
    exact progressEvents_progress_map s.loadingCallbacks _ _ _

theorem completeEvents_processSettle (s : LoaderState) (t : Settle) :
    completeEvents (processSettle s t).2 = [] := by
  obtain ⟨n, r⟩ := t
  cases r with
  | none =>
    show completeEvents (triggerError s n ++
      s.loadingCallbacks.map fun cb =>
        LoadEvent.progress cb (computeProgress (s.loadedResources + 1) s.totalResources)
          (s.loadedResources + 1) s.totalResources) = _
    rw [completeEvents_append]
    show completeEvents (s.errorCallbacks.map fun cb => LoadEvent.error cb n) ++ _ = _
    rw [completeEvents_error_map, completeEvents_progress_map, List.nil_append]
  | some h =>
    exact completeEvents_progress_map s.loadingCallbacks _ _ _

theorem completeEvents_processSettles (ts : List Settle) (s : LoaderState) :
    completeEvents (processSettles s ts).2 = [] := by
  induction ts generalizing s with
  | nil => rfl
  | cons t ts ih =>
    rw [processSettles_cons_snd, completeEvents_append, completeEvents_processSettle,
      ih (processSettle s t).1, List.nil_append]

theorem progressEvents_processSettles (ts : List Settle) (s : LoaderState) :
    progressEvents (processSettles s ts).2 =
      (List.range' (s.loadedResources + 1) ts.length).flatMap fun i =>
        s.loadingCallbacks.map fun cb =>
          LoadEvent.progress cb (computeProgress i s.totalResources) i s.totalResources := by
  induction ts generalizing s with
  | nil => rfl
  | cons t ts ih =>
    rw [processSettles_cons_snd, progressEvents_append, progressEvents_processSettle,
      ih (processSettle s t).1]
    obtain ⟨g1, g2, g3, -, -, -, -, -⟩ := processSettle_fields s t
    rw [g1, g2, g3, List.length_cons, List.range'_succ, List.flatMap_cons]

theorem error_mem_processSettle (s : LoaderState) (t : Settle) (cb : ℕ)
    (hres : t.result = none) (hcb : cb ∈ s.errorCallbacks) :
    LoadEvent.error cb t.name ∈ (processSettle s t).2 := by
  obtain ⟨n, r⟩ := t
  simp only at hres
  subst hres
  show LoadEvent.error cb n ∈ triggerError s n ++ _
  refine List.mem_append_left _ ?_
  exact List.mem_map.mpr ⟨cb, hcb, rfl⟩

theorem error_mem_processSettles (ts : List Settle) (s : LoaderState) (t : Settle) (cb : ℕ)
    (ht : t ∈ ts) (hres : t.result = none) (hcb : cb ∈ s.errorCallbacks) :
    LoadEvent.error cb t.name ∈ (processSettles s ts).2 := by
  induction ts generalizing s with
  | nil => cases ht
  | cons t' ts ih =>
    rw [processSettles_cons_snd]
    rcases List.mem_cons.mp ht with h | h
    · subst h
      exact List.mem_append_left _ (error_mem_processSettle s t cb hres hcb)
    · refine List.mem_append_right _ ?_
      obtain ⟨-, -, -, -, g5, -, -, -⟩ := processSettle_fields s t'
      exact ih (processSettle s t').1 h (by rw [g5]; exact hcb)

theorem startLoading_of_isLoading (s : LoaderState) (settles : List Settle)
    (h : s.isLoading = true) : startLoading s settles = (s, []) := by
  simp [startLoading, h]

theorem startLoading_eq_runLoading (s : LoaderState) (settles : List Settle)
    (x : String) (xs : List String)
    (h : s.isLoading = false) (hrl : s.resourceList = some (x :: xs)) :
    startLoading s settles = runLoading s settles := by
  simp [startLoading, h, hrl]

theorem runLoading_fst (s : LoaderState) (settles : List Settle) :
    (runLoading s settles).1.isLoading = false ∧
    (runLoading s settles).1.isComplete = true ∧
    (runLoading s settles).1.loadingProgress = 100 ∧
    (runLoading s settles).1.loadedResources = s.loadedResources + settles.length ∧
    (runLoading s settles).1.totalResources = s.totalResources ∧
    (runLoading s settles).1.loadingCallbacks = s.loadingCallbacks ∧
    (runLoading s settles).1.completeCallbacks = s.completeCallbacks ∧
    (runLoading s settles).1.errorCallbacks = s.errorCallbacks ∧
    (runLoading s settles).1.resourceList = s.resourceList := by
  obtain ⟨h1, h2, h3, h4, h5, h6, h7, h8⟩ :=
    processSettles_fields settles (updateProgress { s with isLoading := true }).1
  exact ⟨rfl, rfl, rfl, h1, h2, h3, h4, h5, h8⟩

theorem runLoading_snd (s : LoaderState) (settles : List Settle) :
    (runLoading s settles).2 =
      (updateProgress { s with isLoading := true }).2 ++
        (processSettles (updateProgress { s with isLoading := true }).1 settles).2 ++
        (completeLoading
          (processSettles (updateProgress { s with isLoading := true }).1 settles).1).2 := rfl

theorem completeEvents_updateProgress (s : LoaderState) :
    completeEvents (updateProgress s).2 = [] :=
  completeEvents_progress_map s.loadingCallbacks _ _ _

theorem completeEvents_runLoading (s : LoaderState) (settles : List Settle) :
    completeEvents (runLoading s settles).2 =
      s.completeCallbacks.map fun cb =>
        LoadEvent.complete cb (runLoading s settles).1.resources := by
  rw [runLoading_snd, completeEvents_append, completeEvents_append,
    completeEvents_updateProgress, completeEvents_processSettles, List.nil_append,
    List.nil_append]
  obtain ⟨-, -, -, h4, -, -, -, -⟩ :=
    processSettles_fields settles (updateProgress { s with isLoading := true }).1
  have hc : completeEvents
      (completeLoading
        (processSettles (updateProgress { s with isLoading := true }).1 settles).1).2 =
      (processSettles (updateProgress { s with isLoading := true }).1
          settles).1.completeCallbacks.map fun cb =>
        LoadEvent.complete cb
          (processSettles (updateProgress { s with isLoading := true }).1 settles).1.resources :=
    completeEvents_complete_map _ _
  rw [hc, h4]
  rfl

theorem progressEvents_runLoading (s : LoaderState) (settles : List Settle) :
    progressEvents (runLoading s settles).2 =
      (List.range' s.loadedResources (settles.length + 1)).flatMap fun i =>
        s.loadingCallbacks.map fun cb =>
          LoadEvent.progress cb (computeProgress i s.totalResources) i s.totalResources := by
  rw [runLoading_snd, progressEvents_append, progressEvents_append,
    progressEvents_processSettles]
  have hcpl : progressEvents
      (completeLoading
        (processSettles (updateProgress { s with isLoading := true }).1 settles).1).2 = [] :=
    progressEvents_complete_map _ _
  rw [hcpl, List.append_nil]
  have h0 : progressEvents (updateProgress { s with isLoading := true }).2 =
      s.loadingCallbacks.map fun cb =>
        LoadEvent.progress cb (computeProgress s.loadedResources s.totalResources)
          s.loadedResources s.totalResources :=
    progressEvents_progress_map s.loadingCallbacks _ _ _
  rw [h0, List.range'_succ, List.flatMap_cons]
  rfl

end ResourceLoader

theorem progressLoadedCounts_eq_map (evs : List LoadEvent) :
    progressLoadedCounts evs =
      (progressEvents evs).map fun e =>
        match e with
        | .progress _ _ loaded _ => loaded
        | _ => 0 := by
  induction evs with
  | nil => rfl
  | cons e evs ih =>
    cases e <;>
      simp [progressLoadedCounts, progressEvents, List.filter_cons, List.filterMap_cons,
        LoadEvent.isProgressEvt] <;>
      simpa [progressLoadedCounts, progressEvents] using ih

theorem pairwise_le_flatMap_replicate (m a n : ℕ) :
    List.Pairwise (· ≤ ·) ((List.range' a n).flatMap fun i => List.replicate m i) := by
  induction n generalizing a with
  | zero => simp
  | succ k ih =>
    rw [List.range'_succ, List.flatMap_cons]
    refine List.pairwise_append.mpr ⟨?_, ih (a + 1), ?_⟩
    · exact List.pairwise_replicate.mpr (Or.inr le_rfl)
    · intro x hx y hy
      have hxa : x = a := List.eq_of_mem_replicate hx
      obtain ⟨i, hi, hyi⟩ := List.mem_flatMap.mp hy
      have hyx : y = i := List.eq_of_mem_replicate hyi
      have hbound := (List.mem_range'_1.mp hi).1
      omega

theorem progressLoadedCounts_runLoading (s : LoaderState) (settles : List Settle) :
    progressLoadedCounts (ResourceLoader.runLoading s settles).2 =
      (List.range' s.loadedResources (settles.length + 1)).flatMap fun i =>
        List.replicate s.loadingCallbacks.length i := by
  rw [progressLoadedCounts_eq_map, ResourceLoader.progressEvents_runLoading,
    List.map_flatMap]
  congr 1
  funext i
  rw [List.map_map]
  have : ((fun e =>
      match e with
      | LoadEvent.progress _ _ loaded _ => loaded
      | _ => 0) ∘ fun cb =>
        LoadEvent.progress cb (ResourceLoader.computeProgress i s.totalResources) i
          s.totalResources) = fun _ => i := by
    funext cb
    rfl
  rw [this, List.map_const']

/-- C4: over a single `startLoading` run on a fresh session, the dispatched
progress-callback invocations are exactly one block per completion event
(plus the initial block at zero completions), each block calling every
registered progress callback with
`(computeProgress loaded total, loaded, total)` where `computeProgress`
is `loaded / total * 100` (and `100` for `total = 0`); the `loaded` values
delivered across the run are monotonically non-decreasing. -/
theorem C4_progress_reporting (s : LoaderState) (rl : List String) (settles : List Settle)
    (hload : s.isLoading = false) (hrl : s.resourceList = some rl) (hne : rl ≠ [])
    (h0 : s.loadedResources = 0) :
    progressEvents (ResourceLoader.startLoading s settles).2 =
      (List.range (settles.length + 1)).flatMap (fun i =>
        s.loadingCallbacks.map fun cb =>
          LoadEvent.progress cb (ResourceLoader.computeProgress i s.totalResources) i
            s.totalResources) ∧
      List.Pairwise (· ≤ ·) (progressLoadedCounts (ResourceLoader.startLoading s settles).2) := by
  obtain ⟨x, xs, rfl⟩ : ∃ x xs, rl = x :: xs := by
    cases rl with
    | nil => exact absurd rfl hne
    | cons x xs => exact ⟨x, xs, rfl⟩
  rw [ResourceLoader.startLoading_eq_runLoading s settles x xs hload hrl]
  constructor
  · rw [ResourceLoader.progressEvents_runLoading, h0, List.range_eq_range']
  · rw [progressLoadedCounts_runLoading]
    exact pairwise_le_flatMap_replicate _ _ _

/-- C4 witness: a one-resource session with one progress callback produces
the two expected progress blocks, with non-decreasing loaded counts. -/
theorem C4_progress_reporting_witness :
    (LoaderState.mk 0 1 0 [] [0] [1] [2] false false (some ["a"])).isLoading = false ∧
      (LoaderState.mk 0 1 0 [] [0] [1] [2] false false (some ["a"])).resourceList =
        some ["a"] ∧
      (["a"] : List String) ≠ [] ∧
      (LoaderState.mk 0 1 0 [] [0] [1] [2] false false (some ["a"])).loadedResources = 0 ∧
      progressEvents
          (ResourceLoader.startLoading
            (LoaderState.mk 0 1 0 [] [0] [1] [2] false false (some ["a"]))
            [⟨"a", some 7⟩]).2 =
        (List.range ([Settle.mk "a" (some 7)].length + 1)).flatMap (fun i =>
          ([0] : List ℕ).map fun cb =>
            LoadEvent.progress cb (ResourceLoader.computeProgress i 1) i 1) ∧
      List.Pairwise (· ≤ ·)
        (progressLoadedCounts
          (ResourceLoader.startLoading
            (LoaderState.mk 0 1 0 [] [0] [1] [2] false false (some ["a"]))
            [⟨"a", some 7⟩]).2) := by
  have h := C4_progress_reporting (LoaderState.mk 0 1 0 [] [0] [1] [2] false false (some ["a"]))
    ["a"] [⟨"a", some 7⟩] rfl rfl (by decide) rfl
  exact ⟨rfl, rfl, by decide, rfl, h.1, h.2⟩

/-- C1: for a fresh five-resource session in which three loads succeed and
two fail, the trace of `startLoading` ends with exactly one invocation of
each registered completion callback (in registration order, with the final
handle map), preceded only by non-completion events; the final completed
count is 5; every failing load is reported to every registered error
callback; and the join always terminates with the session complete —
regardless of the callback registration lists. -/
theorem C1_load_session_completion (s : LoaderState) (rl : List String)
    (settles : List Settle) (hload : s.isLoading = false)
    (hrl : s.resourceList = some rl) (hlen : rl.length = 5)
    (h0 : s.loadedResources = 0) (hsettles : settles.length = 5)
    (hfail : (settles.filter fun t => t.result.isNone).length = 2) :
    (∃ pre,
        (ResourceLoader.startLoading s settles).2 =
          pre ++ s.completeCallbacks.map (fun cb =>
            LoadEvent.complete cb (ResourceLoader.startLoading s settles).1.resources) ∧
          completeEvents pre = []) ∧
      (ResourceLoader.startLoading s settles).1.loadedResources = 5 ∧
      (ResourceLoader.startLoading s settles).1.isComplete = true ∧
      (ResourceLoader.startLoading s settles).1.isLoading = false ∧
      ∀ t ∈ settles, t.result = none → ∀ cb ∈ s.errorCallbacks,
        LoadEvent.error cb t.name ∈ (ResourceLoader.startLoading s settles).2 := by
  obtain ⟨x, xs, rfl⟩ : ∃ x xs, rl = x :: xs := by
    cases rl with
    | nil => simp at hlen
    | cons x xs => exact ⟨x, xs, rfl⟩
  rw [ResourceLoader.startLoading_eq_runLoading s settles x xs hload hrl]
  obtain ⟨f1, f2, f3, f4, f5, f6, f7, f8⟩ :=
    ResourceLoader.processSettles_fields settles
      (ResourceLoader.updateProgress { s with isLoading := true }).1
  refine ⟨?_, ?_, ?_, ?_, ?_⟩
  · refine ⟨(ResourceLoader.updateProgress { s with isLoading := true }).2 ++
      (ResourceLoader.processSettles
        (ResourceLoader.updateProgress { s with isLoading := true }).1 settles).2, ?_, ?_⟩
    · rw [ResourceLoader.runLoading_snd]
      congr 1
      have he2 : (ResourceLoader.completeLoading
          (ResourceLoader.processSettles
            (ResourceLoader.updateProgress { s with isLoading := true }).1 settles).1).2 =
          (ResourceLoader.processSettles
            (ResourceLoader.updateProgress { s with isLoading := true }).1
              settles).1.completeCallbacks.map fun cb =>
            LoadEvent.complete cb
              (ResourceLoader.processSettles
                (ResourceLoader.updateProgress { s with isLoading := true }).1
                  settles).1.resources := rfl
      rw [he2, f4]
      rfl
    · rw [ResourceLoader.completeEvents_append, ResourceLoader.completeEvents_updateProgress,
        ResourceLoader.completeEvents_processSettles, List.nil_append]
  · have h4 := (ResourceLoader.runLoading_fst s settles).2.2.2.1
    rw [h4, h0, hsettles]
  · exact (ResourceLoader.runLoading_fst s settles).2.1
  · exact (ResourceLoader.runLoading_fst s settles).1
  · intro t ht hres cb hcb
    rw [ResourceLoader.runLoading_snd]
    refine List.mem_append_left _ (List.mem_append_right _ ?_)
    refine ResourceLoader.error_mem_processSettles settles _ t cb ht hres ?_
    exact hcb

/-- C1 witness: a concrete five-resource session with three successes and
two failures, one progress callback, two completion callbacks and one error
callback.  The session terminates complete with count 5 and the failure of
resource `"b"` is reported to error callback 3. -/
theorem C1_load_session_completion_witness :
    (LoaderState.mk 0 5 0 [] [0] [1, 2] [3] false false
          (some ["a", "b", "c", "d", "e"])).isLoading = false ∧
      ((["a", "b", "c", "d", "e"] : List String)).length = 5 ∧
      ([Settle.mk "a" (some 10), Settle.mk "b" none, Settle.mk "c" (some 11),
        Settle.mk "d" none, Settle.mk "e" (some 12)].filter
          fun t => t.result.isNone).length = 2 ∧
      (ResourceLoader.startLoading
          (LoaderState.mk 0 5 0 [] [0] [1, 2] [3] false false
            (some ["a", "b", "c", "d", "e"]))
          [Settle.mk "a" (some 10), Settle.mk "b" none, Settle.mk "c" (some 11),
            Settle.mk "d" none, Settle.mk "e" (some 12)]).1.loadedResources = 5 ∧
      (ResourceLoader.startLoading
          (LoaderState.mk 0 5 0 [] [0] [1, 2] [3] false false
            (some ["a", "b", "c", "d", "e"]))
          [Settle.mk "a" (some 10), Settle.mk "b" none, Settle.mk "c" (some 11),
            Settle.mk "d" none, Settle.mk "e" (some 12)]).1.isComplete = true ∧
      LoadEvent.error 3 "b" ∈
        (ResourceLoader.startLoading
          (LoaderState.mk 0 5 0 [] [0] [1, 2] [3] false false
            (some ["a", "b", "c", "d", "e"]))
          [Settle.mk "a" (some 10), Settle.mk "b" none, Settle.mk "c" (some 11),
            Settle.mk "d" none, Settle.mk "e" (some 12)]).2 := by
  have h := C1_load_session_completion
    (LoaderState.mk 0 5 0 [] [0] [1, 2] [3] false false (some ["a", "b", "c", "d", "e"]))
    ["a", "b", "c", "d", "e"]
    [Settle.mk "a" (some 10), Settle.mk "b" none, Settle.mk "c" (some 11),
      Settle.mk "d" none, Settle.mk "e" (some 12)]
    rfl rfl (by decide) rfl (by decide) (by decide)
  refine ⟨rfl, by decide, by decide, h.2.1, h.2.2.1, ?_⟩
  exact h.2.2.2.2 (Settle.mk "b" none) (by decide) rfl 3 (by decide)

/-- C3: the claim says that after a session's completion callbacks have
fired, no further `startLoading` call fires them again without a new
`defineResources`.  False: `startLoading` only guards on `isLoading`, never
on `isComplete`, so on a loader with one completion callback and one
declared resource a second `startLoading` call right after the first
completed run fires the completion callback a second time. -/
theorem C3_terminal_once_counterexample :
    (ResourceLoader.startLoading
        (ResourceLoader.defineResources (ResourceLoader.onComplete ResourceLoader.new 0) ["a"])
        [Settle.mk "a" (some 1)]).1.isComplete = true ∧
      completeEvents
          (ResourceLoader.startLoading
            (ResourceLoader.defineResources
              (ResourceLoader.onComplete ResourceLoader.new 0) ["a"])
            [Settle.mk "a" (some 1)]).2 = [LoadEvent.complete 0 [("a", 1)]] ∧
      completeEvents
          (ResourceLoader.startLoading
            (ResourceLoader.startLoading
              (ResourceLoader.defineResources
                (ResourceLoader.onComplete ResourceLoader.new 0) ["a"])
              [Settle.mk "a" (some 1)]).1
            [Settle.mk "a" (some 1)]).2 = [LoadEvent.complete 0 [("a", 1)]] := by
  refine ⟨rfl, rfl, rfl⟩

/-- C3 (amended): within one `startLoading` run the completion callbacks
fire exactly once, and a `startLoading` call while a load is in progress is
a no-op; but a completed session is not terminal for the coordinator's
lifetime — `startLoading` never checks `isComplete`, so a further call
after completion (with no intervening `defineResources`) re-runs the
session and fires every completion callback again. -/
theorem C3_terminal_once_amended (s : LoaderState) (rl : List String)
    (settles settles' : List Settle) (hload : s.isLoading = false)
    (hrl : s.resourceList = some rl) (hne : rl ≠ []) :
    completeEvents (ResourceLoader.startLoading s settles).2 =
      s.completeCallbacks.map (fun cb =>
        LoadEvent.complete cb (ResourceLoader.startLoading s settles).1.resources) ∧
      (ResourceLoader.startLoading s settles).1.isComplete = true ∧
      completeEvents
          (ResourceLoader.startLoading
            (ResourceLoader.startLoading s settles).1 settles').2 =
        s.completeCallbacks.map (fun cb =>
          LoadEvent.complete cb
            (ResourceLoader.startLoading
              (ResourceLoader.startLoading s settles).1 settles').1.resources) ∧
      ∀ s2 : LoaderState, ∀ ts : List Settle, s2.isLoading = true →
        ResourceLoader.startLoading s2 ts = (s2, []) := by
  obtain ⟨x, xs, rfl⟩ : ∃ x xs, rl = x :: xs := by
    cases rl with
    | nil => exact absurd rfl hne
    | cons x xs => exact ⟨x, xs, rfl⟩
  have hrun1 : ResourceLoader.startLoading s settles = ResourceLoader.runLoading s settles :=
    ResourceLoader.startLoading_eq_runLoading s settles x xs hload hrl
  obtain ⟨k1, k2, -, -, -, -, k7, -, k9⟩ := ResourceLoader.runLoading_fst s settles
  rw [hrun1]
  have hrun2 : ResourceLoader.startLoading (ResourceLoader.runLoading s settles).1 settles' =
      ResourceLoader.runLoading (ResourceLoader.runLoading s settles).1 settles' :=
    ResourceLoader.startLoading_eq_runLoading _ settles' x xs k1 (by rw [k9, hrl])
  refine ⟨ResourceLoader.completeEvents_runLoading s settles, k2, ?_, ?_⟩
  · rw [hrun2, ResourceLoader.completeEvents_runLoading, k7]
  · intro s2 ts h2
    exact ResourceLoader.startLoading_of_isLoading s2 ts h2

/-- C3 (amended) witness: on a concrete one-resource loader the first run
fires the completion callback once, the second run fires it again, and a
loader flagged as in-progress ignores `startLoading`. -/
theorem C3_terminal_once_amended_witness :
    completeEvents
        (ResourceLoader.startLoading
          (LoaderState.mk 0 1 0 [] [] [1] [] false false (some ["a"]))
          [Settle.mk "a" (some 1)]).2 =
      ([1] : List ℕ).map (fun cb =>
        LoadEvent.complete cb
          (ResourceLoader.startLoading
            (LoaderState.mk 0 1 0 [] [] [1] [] false false (some ["a"]))
            [Settle.mk "a" (some 1)]).1.resources) ∧
      (ResourceLoader.startLoading
          (LoaderState.mk 0 1 0 [] [] [1] [] false false (some ["a"]))
          [Settle.mk "a" (some 1)]).1.isComplete = true ∧
      completeEvents
          (ResourceLoader.startLoading
            (ResourceLoader.startLoading
              (LoaderState.mk 0 1 0 [] [] [1] [] false false (some ["a"]))
              [Settle.mk "a" (some 1)]).1
            [Settle.mk "a" (some 1)]).2 =
        ([1] : List ℕ).map (fun cb =>
          LoadEvent.complete cb
            (ResourceLoader.startLoading
              (ResourceLoader.startLoading
                (LoaderState.mk 0 1 0 [] [] [1] [] false false (some ["a"]))
                [Settle.mk "a" (some 1)]).1
              [Settle.mk "a" (some 1)]).1.resources) ∧
      ResourceLoader.startLoading
          (LoaderState.mk 0 1 0 [] [] [] [] true false none) [] =
        (LoaderState.mk 0 1 0 [] [] [] [] true false none, []) := by
  have h := C3_terminal_once_amended
    (LoaderState.mk 0 1 0 [] [] [1] [] false false (some ["a"])) ["a"]
    [Settle.mk "a" (some 1)] [Settle.mk "a" (some 1)] rfl rfl (by decide)
  exact ⟨h.1, h.2.1, h.2.2.1,
    h.2.2.2 (LoaderState.mk 0 1 0 [] [] [] [] true false none) [] rfl⟩
